import Mathlib

/-!
Verification development for the sunflowerbanking backend (src/server.js).

The definitions below are a shallow embedding of the transactional
funds-movement core of the server: monetary amounts are modelled as `Int`,
MongoDB documents as Lean structures, collections as lists, and a Mongoose
session (all-or-nothing unit of work) as a function that returns either the
original state (abort) or the fully updated state (commit).  Randomly
generated values (reference ids, fresh document ids, candidate account
numbers) are taken as explicit arguments.
-/

namespace Sunflower

/-- Transaction status, the enum of transactionSchema in server.js. -/
inductive TxStatus
  | Processing
  | Pending
  | Approved
  | Successful
  | Delivered
  | Refunded
  | Failed
  | Declined
deriving DecidableEq, Repr

/-- An account sub-document (accountSchema in server.js).  Only the fields
the funds-movement core reads or writes are kept. -/
structure Account where
  accountNumber : String
  accountType : String
  currencyCode : String
  balance : Int
  overdraftLimit : Int
deriving DecidableEq, Repr

/-- A user document (userSchema), reduced to the fields the funds-movement
core uses.  `transferPin` stands for the stored transferPinHash: the
bcrypt.compare of the supplied PIN against the hash is modelled as string
equality.  `transferMessageActive` is transferMessage.isActive, the
administrative transfer-block policy flag. -/
structure User where
  id : String
  userIdName : String
  email : String
  transferPin : String
  transferMessageActive : Bool
  accounts : List Account
deriving DecidableEq, Repr

/-- The details sub-object read by PUT /api/transactions/:id/complete. -/
structure TxDetails where
  destinationAccountNumber : String
  destinationName : String
  transferType : String
  transactionClass : String
deriving DecidableEq, Repr

/-- A transaction document (transactionSchema).  `id` is the MongoDB _id. -/
structure Transaction where
  id : String
  userId : String
  amount : Int
  accountNumber : String
  accountType : String
  referenceId : String
  destinationAccountNumber : Option String
  isInternal : Bool
  status : TxStatus
  lastUpdatedByAdmin : Option String
  updatedAt : Nat
  details : Option TxDetails
deriving DecidableEq, Repr

/-- A check-deposit document (checkDepositSchema).  The status is kept as a
raw string because the review route writes lowercased strings that are
checked against the schema enum only at update time. -/
structure CheckDeposit where
  depositId : String
  status : String
  userId : String
  amount : Int
  currencyCode : String
  destinationAccountNumber : String
  reviewNotes : String
  createdAt : Nat
  updatedAt : Nat
deriving DecidableEq, Repr

/-- The database state touched by the funds-movement core. -/
structure BankState where
  users : List User
  transactions : List Transaction
  deposits : List CheckDeposit
deriving DecidableEq, Repr

/-- Math.abs on a signed amount. -/
def jsAbs (x : Int) : Int := if x < 0 then -x else x

/-- User.findOne on accounts.accountNumber: the first user holding the
account number, if any. -/
def findUserByAccount (users : List User) (accountNumber : String) : Option User :=
  users.find? (fun u => u.accounts.any (fun a => a.accountNumber == accountNumber))

/-- The balance of the given account as an observer: the matching account of
the first user holding the number. -/
def accountBalance (users : List User) (accountNumber : String) : Option Int :=
  match findUserByAccount users accountNumber with
  | none => none
  | some u => (u.accounts.find? (fun a => a.accountNumber == accountNumber)).map (·.balance)

/-- A positional-operator update: $inc on the first array element whose
accountNumber matches. -/
def incFirstMatchingAccount (accounts : List Account) (accountNumber : String) (delta : Int) :
    List Account :=
  match accounts with
  | [] => []
  | a :: rest =>
    if a.accountNumber == accountNumber then
      { a with balance := a.balance + delta } :: rest
    else
      a :: incFirstMatchingAccount rest accountNumber delta

/-- An arrayFilters update: $inc on every array element whose accountNumber
matches. -/
def incAllMatchingAccounts (accounts : List Account) (accountNumber : String) (delta : Int) :
    List Account :=
  accounts.map (fun a =>
    if a.accountNumber == accountNumber then { a with balance := a.balance + delta } else a)

/-- A positional-operator update: $set balance on the first array element
whose accountNumber matches. -/
def setFirstMatchingAccount (accounts : List Account) (accountNumber : String) (value : Int) :
    List Account :=
  match accounts with
  | [] => []
  | a :: rest =>
    if a.accountNumber == accountNumber then
      { a with balance := value } :: rest
    else
      a :: setFirstMatchingAccount rest accountNumber value

/-- User.updateOne filtered by _id and accounts.accountNumber with a
positional $inc on the balance (server.js around line 1582). -/
def creditUserAccount (users : List User) (uid : String) (accountNumber : String) (delta : Int) :
    List User :=
  users.map (fun u =>
    if u.id == uid && u.accounts.any (fun a => a.accountNumber == accountNumber) then
      { u with accounts := incFirstMatchingAccount u.accounts accountNumber delta }
    else u)

/-- User.updateOne filtered by _id and accounts.accountNumber with a
positional $set of the balance (server.js lines 3072 and 1826). -/
def setUserAccountBalance (users : List User) (uid : String) (accountNumber : String)
    (value : Int) : List User :=
  users.map (fun u =>
    if u.id == uid && u.accounts.any (fun a => a.accountNumber == accountNumber) then
      { u with accounts := setFirstMatchingAccount u.accounts accountNumber value }
    else u)

/-- User.findOneAndUpdate on accounts.accountNumber with an arrayFilters
$inc (server.js line 1613): updates the first user holding the account,
returning none when no user matches (the route then aborts with 404). -/
def updateFirstUserHolding (users : List User) (accountNumber : String) (delta : Int) :
    Option (List User) :=
  match users with
  | [] => none
  | u :: rest =>
    if u.accounts.any (fun a => a.accountNumber == accountNumber) then
      some ({ u with accounts := incAllMatchingAccounts u.accounts accountNumber delta } :: rest)
    else
      match updateFirstUserHolding rest accountNumber delta with
      | none => none
      | some rest' => some (u :: rest')

/-- The reversal statuses of the status-transition route (line 1490). -/
def reversalStatuses : List TxStatus := [.Refunded, .Failed, .Declined]

/-- Outcomes of PUT /api/transactions/:transactionId/status. -/
inductive StatusOutcome
  | txNotFound
  | noChange (s : TxStatus)
  | missingDestination
  | recipientNotFound (dest : String)
  | destAccountInaccessible (dest : String)
  | reversalAccountNotFound (accountNumber : String)
  | updated (s : TxStatus)
deriving DecidableEq, Repr

/-- The body of the atomic unit of work of the status route, lines
1533-1636 of server.js: an error value models session.abortTransaction
followed by the corresponding HTTP error response. -/
def setTransactionStatusCore (st : BankState) (transaction : Transaction)
    (newStatus : TxStatus) (adminId : String) (now : Nat) (freshId : String) :
    Except StatusOutcome BankState :=
  let currentStatus := transaction.status
  -- A. Handle REVERSAL (lines 1539-1549)
  let accountUpdate : Int :=
    if newStatus ∈ reversalStatuses then
      if currentStatus ≠ .Successful ∧ currentStatus ∉ reversalStatuses then
        if transaction.amount < 0 then jsAbs transaction.amount else 0
      else 0
    else 0
  -- B. Handle SUCCESSFUL COMPLETION (lines 1552-1609)
  let afterCompletion : Except StatusOutcome (List User × List Transaction) :=
    if newStatus = .Successful ∧
        (currentStatus = .Processing ∨ currentStatus = .Approved ∨ currentStatus = .Pending) then
      if transaction.isInternal then
        match transaction.destinationAccountNumber with
        | none => .error .missingDestination
        | some dest =>
          match findUserByAccount st.users dest with
          | none => .error (.recipientNotFound dest)
          | some userToCredit =>
            match userToCredit.accounts.find? (fun a => a.accountNumber == dest) with
            | none => .error (.destAccountInaccessible dest)
            | some destinationAccount =>
              let creditAmount := jsAbs transaction.amount
              let users1 := creditUserAccount st.users userToCredit.id dest creditAmount
              let creditTx : Transaction :=
                { id := freshId
                  userId := userToCredit.id
                  amount := creditAmount
                  accountNumber := dest
                  accountType := destinationAccount.accountType
                  referenceId := transaction.referenceId ++ "-CR"
                  destinationAccountNumber := none
                  isInternal := true
                  status := .Successful
                  lastUpdatedByAdmin := none
                  updatedAt := now
                  details := none }
              .ok (users1, st.transactions ++ [creditTx])
      else
        .ok (st.users, st.transactions)
    else
      .ok (st.users, st.transactions)
  match afterCompletion with
  | .error e => .error e
  | .ok (users1, txs1) =>
    -- C. Apply account update for reversals (lines 1612-1624)
    let afterReversal : Except StatusOutcome (List User) :=
      if accountUpdate ≠ 0 then
        match updateFirstUserHolding users1 transaction.accountNumber accountUpdate with
        | none => .error (.reversalAccountNotFound transaction.accountNumber)
        | some users2 => .ok users2
      else
        .ok users1
    match afterReversal with
    | .error e => .error e
    | .ok users2 =>
      -- 5. Update the original transaction status (lines 1627-1631)
      let txs2 := txs1.map (fun t =>
        if t.id == transaction.id then
          { t with status := newStatus, lastUpdatedByAdmin := some adminId, updatedAt := now }
        else t)
      .ok { st with users := users2, transactions := txs2 }

/-- PUT /api/transactions/:transactionId/status (server.js lines 1473-1718).
`freshId` stands for the _id MongoDB assigns to a created credit leg. -/
def setTransactionStatus (st : BankState) (transactionId : String) (newStatus : TxStatus)
    (adminId : String) (now : Nat) (freshId : String) : StatusOutcome × BankState :=
  match st.transactions.find? (fun t => t.id == transactionId) with
  | none => (.txNotFound, st)
  | some transaction =>
    if transaction.status = newStatus then
      (.noChange newStatus, st)
    else
      match setTransactionStatusCore st transaction newStatus adminId now freshId with
      | .error e => (e, st)
      | .ok st' => (.updated newStatus, st')

/-- Outcomes of PUT /api/transactions/:id/complete. -/
inductive CompleteOutcome
  | txNotFound
  | alreadyFinalized (s : TxStatus)
  | notProcessingOrNoDetails
  | sourceUserNotFound
  | destAccountNotFound
  | completed
deriving DecidableEq, Repr

/-- PUT /api/transactions/:id/complete (server.js lines 2448-2565).  The
admin completion route: rejects already finalized transactions, requires
status Processing plus a details object, and for INTERNAL_DEBIT credits the
destination account of the same user and appends a credit leg. -/
def completeTransaction (st : BankState) (transactionId : String) (now : Nat)
    (freshId : String) : CompleteOutcome × BankState :=
  match st.transactions.find? (fun t => t.id == transactionId) with
  | none => (.txNotFound, st)
  | some debitTx =>
    if debitTx.status = .Successful ∨ debitTx.status = .Failed then
      (.alreadyFinalized debitTx.status, st)
    else if debitTx.status ≠ .Processing ∨ debitTx.details = none then
      (.notProcessingOrNoDetails, st)
    else
      match debitTx.details with
      | none => (.notProcessingOrNoDetails, st)
      | some details =>
        let transferAmount := jsAbs debitTx.amount
        let afterCredit : Except CompleteOutcome (List User × List Transaction) :=
          if details.transactionClass == "INTERNAL_DEBIT" then
            match st.users.find? (fun u => u.id == debitTx.userId) with
            | none => .error .sourceUserNotFound
            | some userToNotify =>
              match userToNotify.accounts.find?
                  (fun a => a.accountNumber == details.destinationAccountNumber) with
              | none => .error .destAccountNotFound
              | some destinationAccount =>
                let newDestinationBalance := destinationAccount.balance + transferAmount
                let users1 := setUserAccountBalance st.users debitTx.userId
                  details.destinationAccountNumber newDestinationBalance
                let creditTx : Transaction :=
                  { id := freshId
                    userId := debitTx.userId
                    amount := transferAmount
                    accountNumber := destinationAccount.accountNumber
                    accountType := destinationAccount.accountType
                    referenceId := debitTx.referenceId ++ "-CR"
                    destinationAccountNumber := none
                    isInternal := false
                    status := .Successful
                    lastUpdatedByAdmin := none
                    updatedAt := now
                    details := none }
                .ok (users1, st.transactions ++ [creditTx])
          else
            .ok (st.users, st.transactions)
        match afterCredit with
        | .error e => (e, st)
        | .ok (users1, txs1) =>
          let txs2 := txs1.map (fun t =>
            if t.id == debitTx.id then { t with status := .Successful } else t)
          (.completed, { st with users := users1, transactions := txs2 })

/-- Outcomes of POST /api/client/transfer. -/
inductive TransferOutcome
  | missingFields
  | invalidAmount
  | invalidPinFormat
  | missingDestination
  | userNotFound
  | invalidPin
  | policyBlocked
  | sourceAccountNotFound
  | insufficientFunds
  | accepted (referenceId : String) (newBalance : Int)
deriving DecidableEq, Repr

/-- The 4-digit PIN format test of the transfer route. -/
def pinFormatOk (pin : String) : Bool :=
  pin.length == 4 && pin.data.all Char.isDigit

/-- POST /api/client/transfer (server.js lines 2958-3156), the submitTransfer
operation of the spec.  `transferTypePresent` models the truthiness check on
transferType and `isInternalTransfer` the test
transferType.toLowerCase().includes of the word internal.  `referenceId`
stands for the generated TXN reference and `freshId` for the _id MongoDB
assigns to the created debit transaction. -/
def submitTransfer (st : BankState) (userId : String) (sourceAccountNumber : String)
    (transactionAmount : Int) (transferTypePresent : Bool) (isInternalTransfer : Bool)
    (destinationAccountNumber : Option String) (transferPin : String)
    (referenceId : String) (freshId : String) (now : Nat) : TransferOutcome × BankState :=
  -- 2. Basic validation: falsy source/amount/type/pin
  if sourceAccountNumber.isEmpty ∨ transactionAmount = 0 ∨ ¬ transferTypePresent ∨
      transferPin.isEmpty then
    (.missingFields, st)
  else if transactionAmount ≤ 0 then
    (.invalidAmount, st)
  else if ¬ pinFormatOk transferPin then
    (.invalidPinFormat, st)
  else if isInternalTransfer ∧ destinationAccountNumber = none then
    (.missingDestination, st)
  else
    -- 3. Find user and validate PIN
    match st.users.find? (fun u => u.id == userId) with
    | none => (.userNotFound, st)
    | some user =>
      if user.transferPin ≠ transferPin then
        (.invalidPin, st)
      -- 3.5. Conditional transfer-message policy block
      else if user.transferMessageActive then
        (.policyBlocked, st)
      else
        -- 4. Locate the source account
        match user.accounts.find? (fun a => a.accountNumber == sourceAccountNumber) with
        | none => (.sourceAccountNotFound, st)
        | some sourceAccount =>
          -- 4.1. Strict zero-balance floor
          let newBalance := sourceAccount.balance - transactionAmount
          if newBalance < 0 then
            (.insufficientFunds, st)
          else
            -- 5. Debit the source balance; 6. create the Processing debit leg
            let users1 := setUserAccountBalance st.users userId sourceAccountNumber newBalance
            let debitTx : Transaction :=
              { id := freshId
                userId := user.id
                amount := -transactionAmount
                accountNumber := sourceAccount.accountNumber
                accountType := sourceAccount.accountType
                referenceId := referenceId
                destinationAccountNumber := destinationAccountNumber
                isInternal := isInternalTransfer
                status := .Processing
                lastUpdatedByAdmin := none
                updatedAt := now
                details := none }
            (.accepted referenceId newBalance,
              { st with users := users1, transactions := st.transactions ++ [debitTx] })

/-- Outcomes of POST /api/funds/transfer. -/
inductive FundsOutcome
  | missingFields
  | invalidAmount
  | invalidType
  | userOrAccountNotFound
  | insufficientFunds
  | ok (newBalance : Int)
deriving DecidableEq, Repr

/-- POST /api/funds/transfer (server.js lines 1760-1874), the admin direct
credit/debit (adminAdjustBalance of the spec).  `type` is the "credit" or
"debit" selector; `freshId` is the _id of the created history record and
`referenceId` its generated ADMIN reference. -/
def adminFundsTransfer (st : BankState) (userId : String) (accountNumber : String)
    (type : String) (transactionAmount : Int) (description : String)
    (referenceId : String) (freshId : String) (now : Nat) : FundsOutcome × BankState :=
  if accountNumber.isEmpty ∨ type.isEmpty ∨ transactionAmount = 0 ∨ description.isEmpty then
    (.missingFields, st)
  else if transactionAmount ≤ 0 then
    (.invalidAmount, st)
  else if type ≠ "credit" ∧ type ≠ "debit" then
    (.invalidType, st)
  else
    match st.users.find?
        (fun u => u.id == userId && u.accounts.any (fun a => a.accountNumber == accountNumber)) with
    | none => (.userOrAccountNotFound, st)
    | some user =>
      match user.accounts.find? (fun a => a.accountNumber == accountNumber) with
      | none => (.userOrAccountNotFound, st)
      | some account =>
        let result : Except FundsOutcome (Int × Int) :=
          if type == "credit" then
            .ok (account.balance + transactionAmount, transactionAmount)
          else
            if account.balance < transactionAmount then
              .error .insufficientFunds
            else
              .ok (account.balance - transactionAmount, -transactionAmount)
        match result with
        | .error e => (e, st)
        | .ok (newBalance, finalSignedAmount) =>
          let users1 := setUserAccountBalance st.users userId accountNumber newBalance
          let historyTx : Transaction :=
            { id := freshId
              userId := user.id
              amount := finalSignedAmount
              accountNumber := account.accountNumber
              accountType := account.accountType
              referenceId := referenceId
              destinationAccountNumber := none
              isInternal := false
              status := .Processing
              lastUpdatedByAdmin := none
              updatedAt := now
              details := none }
          (.ok newBalance, { st with users := users1, transactions := st.transactions ++ [historyTx] })

/-- Outcomes of PUT /api/check-deposits/:depositId. -/
inductive ReviewOutcome
  | missingStatus
  | notesRequired
  | depositNotFound
  | creditUserNotFound
  | creditAccountNotFound
  | validationError
  | ok (newStatus : String)
deriving DecidableEq, Repr

/-- toLowerCase of JavaScript on ASCII status strings, written over the
character list so that it evaluates structurally. -/
def jsToLower (s : String) : String := ⟨s.data.map Char.toLower⟩

/-- The schema enum of checkDepositSchema.status. -/
def depositStatusEnum : List String := ["Pending", "Approved", "Declined"]

/-- Credit of deposit.amount onto the first account whose currencyCode
matches the deposit currency (the in-place mutation plus user.save of the
review route). -/
def creditFirstAccountByCurrency (accounts : List Account) (currencyCode : String)
    (amount : Int) : List Account :=
  match accounts with
  | [] => []
  | a :: rest =>
    if a.currencyCode == currencyCode then
      { a with balance := a.balance + amount } :: rest
    else
      a :: creditFirstAccountByCurrency rest currencyCode amount

/-- PUT /api/check-deposits/:depositId (server.js lines 2086-2163), the
reviewCheckDeposit operation.  The route lowercases the requested status,
credits the account only when the new status is the string "completed"
(persisting the credit with user.save immediately, outside any session), and
then issues a findOneAndUpdate with runValidators, which rejects any status
not in the schema enum; a rejection there leaves an already persisted credit
in place. -/
def reviewCheckDeposit (st : BankState) (depositId : String) (status : String)
    (adminNotes : String) (now : Nat) : ReviewOutcome × BankState :=
  if status.isEmpty then
    (.missingStatus, st)
  else
    let newStatus := jsToLower status
    let isRejectedOrFailed := newStatus ∈ ["failed", "declined"]
    let trimmedNotes := adminNotes.trim
    if isRejectedOrFailed ∧ trimmedNotes.length < 5 then
      (.notesRequired, st)
    else
      match st.deposits.find? (fun d => d.depositId == depositId) with
      | none => (.depositNotFound, st)
      | some deposit =>
        -- 3. Financial credit, taken only for the target string "completed"
        let creditStep : Except ReviewOutcome (List User) :=
          if deposit.status ≠ "completed" ∧ newStatus = "completed" then
            match st.users.find? (fun u => u.id == deposit.userId) with
            | none => .error .creditUserNotFound
            | some user =>
              match user.accounts.find? (fun a => a.currencyCode == deposit.currencyCode) with
              | none => .error .creditAccountNotFound
              | some _ =>
                .ok (st.users.map (fun u =>
                  if u.id == deposit.userId then
                    { u with accounts := (creditFirstAccountByCurrency u.accounts
                        deposit.currencyCode deposit.amount) }
                  else u))
          else
            .ok st.users
        match creditStep with
        | .error e => (e, st)
        | .ok users1 =>
          -- 4. findOneAndUpdate with runValidators: the enum of the schema
          -- rejects the lowercased status; the credit above, already saved,
          -- is not rolled back.
          if newStatus ∈ depositStatusEnum then
            let deposits1 := st.deposits.map (fun d =>
              if d.depositId == depositId then
                { d with status := newStatus, reviewNotes := trimmedNotes, updatedAt := now }
              else d)
            (.ok newStatus, { st with users := users1, deposits := deposits1 })
          else
            (.validationError, { st with users := users1 })

/-- Outcomes of POST /api/users/:id/transactions/generate. -/
inductive MockOutcome
  | userNotFound
  | noValidAccount
  | ok (newBalance : Int)
deriving DecidableEq, Repr

/-- POST /api/users/:id/transactions/generate (server.js lines 2290-2438),
restricted to a user that already has accounts.  Each draw is the pair of
the isCredit coin flip and the raw random amount; the route signs the
amounts, inserts the transactions and adds the net change to the target
account balance with no floor check.  `mkRefId` and `mkId` stand for the
generated reference ids and MongoDB ids of the inserted documents. -/
def generateMockTransactions (st : BankState) (targetUserId : String)
    (draws : List (Bool × Int)) (mkRefId : Nat → String) (mkId : Nat → String)
    (now : Nat) : MockOutcome × BankState :=
  match st.users.find? (fun u => u.id == targetUserId) with
  | none => (.userNotFound, st)
  | some user =>
    let targetAccount? :=
      match user.accounts.find? (fun a => a.accountType == "Checking") with
      | some a => some a
      | none => user.accounts.head?
    match targetAccount? with
    | none => (.noValidAccount, st)
    | some targetAccount =>
      let transactionsToSave : List Transaction := draws.enum.map (fun p =>
        let isCredit := p.2.1
        let rawAmount := p.2.2
        let finalAmount := if isCredit then rawAmount else -rawAmount
        { id := mkId p.1
          userId := targetUserId
          amount := finalAmount
          accountNumber := targetAccount.accountNumber
          accountType := targetAccount.accountType
          referenceId := mkRefId p.1
          destinationAccountNumber := none
          isInternal := false
          status := .Processing
          lastUpdatedByAdmin := none
          updatedAt := now
          details := none })
      let netChange := (transactionsToSave.map (·.amount)).sum
      let users1 := st.users.map (fun u =>
        if u.id == targetUserId then
          { u with accounts := u.accounts.map (fun a =>
              if a.accountNumber == targetAccount.accountNumber then
                { a with balance := a.balance + netChange }
              else a) }
        else u)
      (.ok (targetAccount.balance + netChange),
        { st with users := users1, transactions := st.transactions ++ transactionsToSave })

/-- The numeric value of a list of decimal digit characters. -/
def digitsToNat (l : List Char) : Nat :=
  l.foldl (fun n c => n * 10 + (c.toNat - 48)) 0

/-- parseInt of JavaScript on the strings this code produces: the value of
the leading digit run, none when there is no leading digit (NaN). -/
def jsParseInt (s : String) : Option Nat :=
  let ds := s.data.takeWhile Char.isDigit
  if ds.isEmpty then none else some (digitsToNat ds)

/-- split on the dash character, written structurally over the character
list (the split of JavaScript with separator "-"). -/
def splitOnDash : List Char → List (List Char)
  | [] => [[]]
  | x :: xs =>
    match splitOnDash xs with
    | [] => [[]]
    | f :: rest => if x = '-' then [] :: f :: rest else (x :: f) :: rest

/-- depositId.split on the dash, as a list of strings. -/
def depositIdParts (s : String) : List String :=
  (splitOnDash s.data).map (fun cs => ⟨cs⟩)

/-- CheckDeposit.findOne().sort by createdAt descending: the deposit with
the greatest createdAt (the first such deposit on ties). -/
def latestDeposit (deposits : List CheckDeposit) : Option CheckDeposit :=
  deposits.foldl (fun acc d =>
    match acc with
    | none => some d
    | some b => if d.createdAt > b.createdAt then some d else acc) none

/-- The deposit id allocation of POST /api/client/check-deposits (lines
3392-3402): the numeric suffix of the depositId of the most recently created
deposit plus one, falling back to 1000 when no deposit exists or the parsed
suffix is NaN. -/
def computeNextDepositIdNum (deposits : List CheckDeposit) : Nat :=
  match latestDeposit deposits with
  | none => 1000
  | some lastDeposit =>
    match (depositIdParts lastDeposit.depositId).get? 1 with
    | none => 1000
    | some part =>
      match jsParseInt part with
      | none => 1000
      | some lastNum => lastNum + 1

/-- Modelled from the words of the spec sentence on depositId allocation:
sequential, derived from the highest numeric suffix among all existing
deposits plus one, starting at 1000 when no deposit exists.  Used only to
compare the spec reading against the code. -/
def specNextDepositIdNum (deposits : List CheckDeposit) : Nat :=
  let suffixes := deposits.filterMap (fun d =>
    match (depositIdParts d.depositId).get? 1 with
    | none => none
    | some part => jsParseInt part)
  match suffixes.max? with
  | none => 1000
  | some m => m + 1

/-- Outcomes of POST /api/client/check-deposits. -/
inductive DepositSubmitOutcome
  | missingFields
  | invalidAmount
  | created (depositId : String)
deriving DecidableEq, Repr

/-- POST /api/client/check-deposits (server.js lines 3361-3433).  The images
are modelled by the flag that both uploads are present. -/
def submitCheckDeposit (st : BankState) (userId : String) (amount : Int)
    (currencyCode : String) (destinationAccountNumber : String)
    (imagesPresent : Bool) (now : Nat) : DepositSubmitOutcome × BankState :=
  if amount = 0 ∨ currencyCode.isEmpty ∨ destinationAccountNumber.isEmpty ∨ ¬ imagesPresent then
    (.missingFields, st)
  else if amount ≤ 0 then
    (.invalidAmount, st)
  else
    let depositId := "DEP-" ++ toString (computeNextDepositIdNum st.deposits)
    let newDeposit : CheckDeposit :=
      { depositId := depositId
        status := "Pending"
        userId := userId
        amount := amount
        currencyCode := ⟨currencyCode.data.map Char.toUpper⟩
        destinationAccountNumber := destinationAccountNumber
        reviewNotes := ""
        createdAt := now
        updatedAt := now }
    (.created depositId, { st with deposits := st.deposits ++ [newDeposit] })

/-- The collision test of generateUniqueAccountDetails: some user already
holds the candidate account number. -/
def accountNumberTaken (users : List User) (accountNumber : String) : Bool :=
  users.any (fun u => u.accounts.any (fun a => a.accountNumber == accountNumber))

/-- The retry loop of generateUniqueAccountDetails (server.js lines
314-341): up to MAX_ATTEMPTS = 10 candidates, returning the first whose
account number no user holds, raising the exhaustion error otherwise.  The
candidate generator (generateAccountDetails on the current time and random
digits) is taken as the function `gen` from the attempt counter. -/
def generateUniqueAttempts (users : List User) (gen : Nat → Account) (attempts : Nat) :
    Except String Account :=
  if h : attempts < 10 then
    let accountDetails := gen attempts
    if accountNumberTaken users accountDetails.accountNumber then
      generateUniqueAttempts users gen (attempts + 1)
    else
      .ok accountDetails
  else
    .error "Failed to generate a unique bank account number after maximum attempts."
termination_by 10 - attempts
decreasing_by omega

/-- generateUniqueAccountDetails (server.js lines 314-341). -/
def generateUniqueAccountDetails (users : List User) (gen : Nat → Account) :
    Except String Account :=
  generateUniqueAttempts users gen 0

/-- The registration form of POST /api/users, reduced to the fields the
validations read. -/
structure RegistrationForm where
  userIdName : String
  userPassword : String
  fullName : String
  email : String
  dob : String
  address : String
  occupation : String
  transferPin : String
  currency : String
deriving DecidableEq, Repr

/-- Outcomes of POST /api/users. -/
inductive RegisterOutcome
  | missingField
  | validationError
  | conflict
  | internalGenError
  | created (userId : String)
deriving DecidableEq, Repr

/-- POST /api/users (server.js lines 836-991).  `emailFormatOk` is the
outcome of the email regular-expression test (profile-field validation is
outside the core).  `genChecking` and `genSavings` are the candidate streams
fed to generateUniqueAccountDetails for the two accounts; `newUserId` is the
_id MongoDB assigns on save.  The save-time unique index on userIdName,
email and accountNumber is the conflict check. -/
def registerUser (st : BankState) (form : RegistrationForm) (emailFormatOk : Bool)
    (genChecking genSavings : Nat → Account) (newUserId : String) :
    RegisterOutcome × BankState :=
  if form.userIdName.isEmpty ∨ form.userPassword.isEmpty ∨ form.fullName.isEmpty ∨
      form.email.isEmpty ∨ form.dob.isEmpty ∨ form.address.isEmpty ∨
      form.occupation.isEmpty ∨ form.transferPin.isEmpty ∨ form.currency.isEmpty then
    (.missingField, st)
  else if form.userIdName.length < 5 then
    (.validationError, st)
  else if form.userPassword.length < 8 then
    (.validationError, st)
  else if ¬ pinFormatOk form.transferPin then
    (.validationError, st)
  else if ¬ emailFormatOk then
    (.validationError, st)
  else
    match generateUniqueAccountDetails st.users genChecking with
    | .error _ => (.internalGenError, st)
    | .ok checkingAccount =>
      match generateUniqueAccountDetails st.users genSavings with
      | .error _ => (.internalGenError, st)
      | .ok savingsAccount =>
        -- newUser.save: the unique indexes on userIdName, email and
        -- accounts.accountNumber raise E11000 on duplicates.
        if st.users.any (fun u => u.userIdName == form.userIdName.toLower) ∨
            st.users.any (fun u => u.email == form.email.toLower) ∨
            accountNumberTaken st.users checkingAccount.accountNumber ∨
            accountNumberTaken st.users savingsAccount.accountNumber ∨
            checkingAccount.accountNumber == savingsAccount.accountNumber then
          (.conflict, st)
        else
          let newUser : User :=
            { id := newUserId
              userIdName := form.userIdName.toLower
              email := form.email.toLower
              transferPin := form.transferPin
              transferMessageActive := false
              accounts := [checkingAccount, savingsAccount] }
          (.created newUserId, { st with users := st.users ++ [newUser] })

/-! ## Helper lemmas -/

lemma jsAbs_nonneg (x : Int) : 0 ≤ jsAbs x := by
  unfold jsAbs; split <;> omega

lemma jsAbs_pos_of_neg {x : Int} (h : x < 0) : 0 < jsAbs x := by
  unfold jsAbs; split <;> omega

lemma incAllMatchingAccounts_any (accounts : List Account) (acct : String) (δ : Int) :
    (incAllMatchingAccounts accounts acct δ).any (fun a => a.accountNumber == acct) =
      accounts.any (fun a => a.accountNumber == acct) := by
  induction accounts with
  | nil => rfl
  | cons a rest ih =>
    by_cases h : a.accountNumber = acct <;>
      simp [incAllMatchingAccounts, h, ih, List.any_map] at * <;> simp [ih]

lemma incAllMatchingAccounts_find? (accounts : List Account) (acct : String) (δ : Int) :
    (incAllMatchingAccounts accounts acct δ).find? (fun a => a.accountNumber == acct) =
      (accounts.find? (fun a => a.accountNumber == acct)).map
        (fun a => { a with balance := a.balance + δ }) := by
  induction accounts with
  | nil => rfl
  | cons a rest ih =>
    by_cases h : a.accountNumber = acct
    · simp [incAllMatchingAccounts, List.find?_cons, h]
    · simpa [incAllMatchingAccounts, List.find?_cons, h] using ih

lemma incFirstMatchingAccount_any (accounts : List Account) (acct : String) (δ : Int) :
    (incFirstMatchingAccount accounts acct δ).any (fun a => a.accountNumber == acct) =
      accounts.any (fun a => a.accountNumber == acct) := by
  induction accounts with
  | nil => rfl
  | cons a rest ih =>
    by_cases h : a.accountNumber = acct <;>
      simp [incFirstMatchingAccount, h, ih]

lemma incFirstMatchingAccount_find? (accounts : List Account) (acct : String) (δ : Int) :
    (incFirstMatchingAccount accounts acct δ).find? (fun a => a.accountNumber == acct) =
      (accounts.find? (fun a => a.accountNumber == acct)).map
        (fun a => { a with balance := a.balance + δ }) := by
  induction accounts with
  | nil => rfl
  | cons a rest ih =>
    by_cases h : a.accountNumber = acct
    · simp [incFirstMatchingAccount, List.find?_cons, h]
    · simpa [incFirstMatchingAccount, List.find?_cons, h] using ih

lemma updateFirstUserHolding_isSome (users : List User) (acct : String) (δ : Int) :
    (updateFirstUserHolding users acct δ).isSome = (findUserByAccount users acct).isSome := by
  induction users with
  | nil => rfl
  | cons u rest ih =>
    by_cases h : (u.accounts.any fun a => a.accountNumber == acct) = true
    · simp [updateFirstUserHolding, findUserByAccount, h]
    · simp only [updateFirstUserHolding, findUserByAccount, if_neg h] at ih ⊢
      rw [List.find?_cons_of_neg _
        (p := fun u : User => u.accounts.any fun a => a.accountNumber == acct) h]
      cases hrec : updateFirstUserHolding rest acct δ with
      | none => rw [hrec] at ih; exact ih
      | some rest' => rw [hrec] at ih; exact ih

lemma accountBalance_updateFirstUserHolding (users : List User) (acct : String) (δ : Int)
    (users' : List User) (h : updateFirstUserHolding users acct δ = some users') :
    accountBalance users' acct = (accountBalance users acct).map (· + δ) := by
  induction users generalizing users' with
  | nil => simp [updateFirstUserHolding] at h
  | cons u rest ih =>
    by_cases hu : u.accounts.any (fun a => a.accountNumber == acct)
    · rw [updateFirstUserHolding, if_pos (by simpa using hu)] at h
      cases h
      simp [accountBalance, findUserByAccount, List.find?_cons, hu,
        incAllMatchingAccounts_any, incAllMatchingAccounts_find?, Option.map_map]
      rfl
    · rw [updateFirstUserHolding, if_neg (by simpa using hu)] at h
      cases hrec : updateFirstUserHolding rest acct δ with
      | none => rw [hrec] at h; cases h
      | some rest' =>
        rw [hrec] at h
        cases h
        rw [accountBalance, findUserByAccount, List.find?_cons_of_neg _ (by simpa using hu)]
        rw [accountBalance, findUserByAccount, List.find?_cons_of_neg _ (by simpa using hu)]
        exact ih rest' hrec

lemma accountBalance_creditUserAccount (users : List User) (r : User) (acct : String)
    (δ : Int) (hr : findUserByAccount users acct = some r) :
    accountBalance (creditUserAccount users r.id acct δ) acct =
      (accountBalance users acct).map (· + δ) := by
  induction users with
  | nil => simp [findUserByAccount] at hr
  | cons u rest ih =>
    by_cases hu : u.accounts.any (fun a => a.accountNumber == acct)
    · rw [findUserByAccount, List.find?_cons_of_pos _ (by simpa using hu)] at hr
      cases hr
      simp only [creditUserAccount, List.map_cons]
      rw [if_pos (by simp [hu])]
      simp [accountBalance, findUserByAccount, List.find?_cons, hu,
        incFirstMatchingAccount_any, incFirstMatchingAccount_find?, Option.map_map]
      rfl
    · rw [findUserByAccount, List.find?_cons_of_neg _ (by simpa using hu)] at hr
      have hstep : creditUserAccount (u :: rest) r.id acct δ =
          u :: creditUserAccount rest r.id acct δ := by
        simp only [creditUserAccount, List.map_cons]
        rw [if_neg (by simp [hu])]
      rw [hstep, accountBalance, findUserByAccount,
        List.find?_cons_of_neg _ (by simpa using hu)]
      rw [accountBalance, findUserByAccount, List.find?_cons_of_neg _ (by simpa using hu)]
      have := ih hr
      rw [accountBalance, findUserByAccount] at this
      rw [accountBalance, findUserByAccount] at this
      exact this

/-! ## Theorems -/

/-- The terminal statuses named by the spec. -/
def terminalStatuses : List TxStatus := [.Successful, .Refunded, .Failed, .Declined]

/-- A concrete one-transaction state whose transaction is already
Successful, used to exhibit the behaviour of the status route on terminal
transactions. -/
def txC1 : Transaction :=
  { id := "t1"
    userId := "uA"
    amount := -40
    accountNumber := "111"
    accountType := "Checking"
    referenceId := "TXN-1"
    destinationAccountNumber := some "222"
    isInternal := true
    status := .Successful
    lastUpdatedByAdmin := none
    updatedAt := 0
    details := none }

def stC1 : BankState :=
  { users := []
    transactions := [txC1]
    deposits := [] }

/-- Claim C1, counterexample: on a transaction whose status is the terminal
Successful, requesting the different status Delivered is not rejected as a
conflict; the route reports success and the stored status changes to
Delivered. -/
theorem C1_counterexample :
    (setTransactionStatus stC1 "t1" .Delivered "adm" 5 "t2").1 =
      .updated .Delivered ∧
    ((setTransactionStatus stC1 "t1" .Delivered "adm" 5 "t2").2.transactions.map
      (fun t => t.status)) = [.Delivered] := by
  constructor <;> rfl

/-- Claim C1 (amended): on a transaction in a terminal status (Successful,
Refunded, Failed or Declined), the status route does not reject a request
for a different status: it succeeds and silently applies the new status,
touching no balance and inserting no ledger row; only the separate admin
completion route rejects such a transaction as a conflict and leaves the
state unchanged. -/
theorem C1_terminal_transition (st : BankState) (transactionId : String)
    (newStatus : TxStatus) (adminId : String) (now : Nat) (freshId : String)
    (tx : Transaction)
    (hfind : st.transactions.find? (fun t => t.id == transactionId) = some tx)
    (hterm : tx.status ∈ terminalStatuses) (hne : tx.status ≠ newStatus) :
    setTransactionStatus st transactionId newStatus adminId now freshId =
      (.updated newStatus,
        { st with transactions := st.transactions.map (fun t =>
            if t.id == tx.id then
              { t with
                  status := newStatus
                  lastUpdatedByAdmin := some adminId
                  updatedAt := now }
            else t) }) ∧
    ((completeTransaction st transactionId now freshId).1 = .alreadyFinalized tx.status ∨
      (completeTransaction st transactionId now freshId).1 = .notProcessingOrNoDetails) ∧
    (completeTransaction st transactionId now freshId).2 = st := by
  have hmem : tx.status = .Successful ∨ tx.status = .Refunded ∨
      tx.status = .Failed ∨ tx.status = .Declined := by
    simpa [terminalStatuses] using hterm
  unfold setTransactionStatus completeTransaction
  rw [hfind]
  rcases hmem with h | h | h | h <;>
    simp [setTransactionStatusCore, h, hne, reversalStatuses] <;>
    exact h ▸ hne

/-- Witness for C1_terminal_transition at a concrete state. -/
theorem C1_terminal_transition_witness :
    stC1.transactions.find? (fun t => t.id == "t1") = some txC1 ∧
    txC1.status ∈ terminalStatuses ∧
    txC1.status ≠ .Delivered ∧
    setTransactionStatus stC1 "t1" .Delivered "adm" 5 "t2" =
      (.updated .Delivered,
        { stC1 with transactions := stC1.transactions.map (fun t =>
            if t.id == txC1.id then
              { t with
                  status := .Delivered
                  lastUpdatedByAdmin := some "adm"
                  updatedAt := 5 }
            else t) }) := by
  refine ⟨by rfl, by decide, by decide, ?_⟩
  exact (C1_terminal_transition stC1 "t1" .Delivered "adm" 5 "t2"
    txC1 (by rfl) (by decide) (by decide)).1

/-- A concrete internal Delivered transaction for the C10 witness. -/
def txC10 : Transaction :=
  { id := "t1"
    userId := "uA"
    amount := -40
    accountNumber := "111"
    accountType := "Checking"
    referenceId := "TXN-1"
    destinationAccountNumber := some "222"
    isInternal := true
    status := .Delivered
    lastUpdatedByAdmin := none
    updatedAt := 0
    details := none }

def stC10 : BankState :=
  { users := [{ id := "uB"
                userIdName := "bob"
                email := "b@x.com"
                transferPin := "9999"
                transferMessageActive := false
                accounts := [{ accountNumber := "222"
                               accountType := "Savings"
                               currencyCode := "USD"
                               balance := 500
                               overdraftLimit := 0 }] }]
    transactions := [txC10]
    deposits := [] }

/-- Claim C10: requesting Successful on an internal transaction whose
current status is Delivered succeeds and sets the status, but creates no
credit leg and changes no account balance; only status, lastUpdatedByAdmin
and updatedAt change on the transaction. -/
theorem C10_delivered_completion (st : BankState) (transactionId : String)
    (adminId : String) (now : Nat) (freshId : String) (tx : Transaction)
    (hfind : st.transactions.find? (fun t => t.id == transactionId) = some tx)
    (hst : tx.status = .Delivered) (_hint : tx.isInternal = true) :
    setTransactionStatus st transactionId .Successful adminId now freshId =
      (.updated .Successful,
        { st with transactions := st.transactions.map (fun t =>
            if t.id == tx.id then
              { t with
                  status := .Successful
                  lastUpdatedByAdmin := some adminId
                  updatedAt := now }
            else t) }) := by
  unfold setTransactionStatus
  rw [hfind]
  simp [setTransactionStatusCore, hst, reversalStatuses]

/-- Witness for C10_delivered_completion at a concrete state. -/
theorem C10_delivered_completion_witness :
    stC10.transactions.find? (fun t => t.id == "t1") = some txC10 ∧
    txC10.status = .Delivered ∧
    txC10.isInternal = true ∧
    setTransactionStatus stC10 "t1" .Successful "adm" 5 "t2" =
      (.updated .Successful,
        { stC10 with transactions := stC10.transactions.map (fun t =>
            if t.id == txC10.id then
              { t with
                  status := .Successful
                  lastUpdatedByAdmin := some "adm"
                  updatedAt := 5 }
            else t) }) := by
  refine ⟨by rfl, by decide, by decide, ?_⟩
  exact C10_delivered_completion stC10 "t1" "adm" 5 "t2" txC10 (by rfl) (by decide) (by decide)

/-- Claim C6: completing (newStatus Successful, current status Processing,
Approved or Pending) an internal transaction whose destination account
number no user holds aborts the whole transition: the outcome is the
recipient-missing error and the state, balances and ledger included, is
exactly the pre-state. -/
theorem C6_recipient_missing (st : BankState) (transactionId : String)
    (adminId : String) (now : Nat) (freshId : String) (tx : Transaction) (dest : String)
    (hfind : st.transactions.find? (fun t => t.id == transactionId) = some tx)
    (hst : tx.status = .Processing ∨ tx.status = .Approved ∨ tx.status = .Pending)
    (hint : tx.isInternal = true)
    (hdest : tx.destinationAccountNumber = some dest)
    (hnouser : findUserByAccount st.users dest = none) :
    setTransactionStatus st transactionId .Successful adminId now freshId =
      (.recipientNotFound dest, st) := by
  unfold setTransactionStatus
  rw [hfind]
  rcases hst with h | h | h <;>
    simp [setTransactionStatusCore, h, hint, hdest, hnouser, reversalStatuses]

/-- A concrete internal Processing transaction whose destination account
999 no user holds. -/
def txC6 : Transaction :=
  { txC1 with status := .Processing, destinationAccountNumber := some "999" }

def stC6 : BankState :=
  { users := []
    transactions := [txC6]
    deposits := [] }

/-- Witness for C6_recipient_missing at a concrete state: no user holds
account 999. -/
theorem C6_recipient_missing_witness :
    stC6.transactions.find? (fun t => t.id == "t1") = some txC6 ∧
    setTransactionStatus stC6 "t1" .Successful "adm" 5 "t2" =
      (.recipientNotFound "999", stC6) := by
  refine ⟨by rfl, ?_⟩
  exact C6_recipient_missing stC6 "t1" "adm" 5 "t2" txC6 "999"
    (by rfl) (by decide) (by decide) (by decide) (by rfl)

/-- Claim C5: a transition to Refunded, Failed or Declined restores
jsAbs amount to the source account exactly when the amount is negative and
the current status is neither Successful nor already a reversal status; in
every other case no balance changes and the route still reports success
(no-op answer or plain status update). -/
theorem C5_reversal_restoration (st : BankState) (transactionId : String)
    (newStatus : TxStatus) (adminId : String) (now : Nat) (freshId : String)
    (tx : Transaction)
    (hfind : st.transactions.find? (fun t => t.id == transactionId) = some tx)
    (hrev : newStatus ∈ reversalStatuses)
    (hacct : (findUserByAccount st.users tx.accountNumber).isSome = true) :
    ((tx.amount < 0 ∧ tx.status ≠ .Successful ∧ tx.status ∉ reversalStatuses) →
      (setTransactionStatus st transactionId newStatus adminId now freshId).1 =
          .updated newStatus ∧
        accountBalance
            (setTransactionStatus st transactionId newStatus adminId now freshId).2.users
            tx.accountNumber =
          (accountBalance st.users tx.accountNumber).map (· + jsAbs tx.amount)) ∧
    (¬ (tx.amount < 0 ∧ tx.status ≠ .Successful ∧ tx.status ∉ reversalStatuses) →
      ((setTransactionStatus st transactionId newStatus adminId now freshId).1 =
          .noChange newStatus ∨
        (setTransactionStatus st transactionId newStatus adminId now freshId).1 =
          .updated newStatus) ∧
      (setTransactionStatus st transactionId newStatus adminId now freshId).2.users =
        st.users) := by
  have hns : newStatus ≠ .Successful := by
    rcases (by simpa [reversalStatuses] using hrev :
      newStatus = .Refunded ∨ newStatus = .Failed ∨ newStatus = .Declined) with h | h | h <;>
      simp [h]
  constructor
  · rintro ⟨hneg, hnsucc, hnotrev⟩
    have hne : tx.status ≠ newStatus := fun he => hnotrev (he ▸ hrev)
    obtain ⟨users', hupd⟩ : ∃ users',
        updateFirstUserHolding st.users tx.accountNumber (jsAbs tx.amount) = some users' := by
      have h := updateFirstUserHolding_isSome st.users tx.accountNumber (jsAbs tx.amount)
      rw [hacct] at h
      exact Option.isSome_iff_exists.mp h
    have hne0 : jsAbs tx.amount ≠ 0 := by
      have := jsAbs_pos_of_neg hneg
      omega
    have hcomp : ¬ (newStatus = TxStatus.Successful ∧
        (tx.status = TxStatus.Processing ∨ tx.status = TxStatus.Approved ∨
          tx.status = TxStatus.Pending)) := by simp [hns]
    have hcore : setTransactionStatusCore st tx newStatus adminId now freshId =
        .ok { st with
                users := users'
                transactions := st.transactions.map (fun t =>
                  if t.id == tx.id then
                    { t with
                        status := newStatus
                        lastUpdatedByAdmin := some adminId
                        updatedAt := now }
                  else t) } := by
      unfold setTransactionStatusCore
      dsimp only
      rw [if_neg hcomp, if_pos hrev,
        if_pos (show tx.status ≠ TxStatus.Successful ∧ tx.status ∉ reversalStatuses from
          ⟨hnsucc, hnotrev⟩),
        if_pos hneg]
      dsimp only
      rw [if_pos hne0, hupd]
    unfold setTransactionStatus
    rw [hfind]
    dsimp only
    rw [if_neg hne, hcore]
    exact ⟨rfl, accountBalance_updateFirstUserHolding st.users tx.accountNumber
      (jsAbs tx.amount) users' hupd⟩
  · intro hncond
    by_cases heq : tx.status = newStatus
    · unfold setTransactionStatus
      rw [hfind]
      dsimp only
      rw [if_pos heq]
      exact ⟨.inl rfl, rfl⟩
    · unfold setTransactionStatus
      rw [hfind]
      dsimp only
      rw [if_neg heq]
      have hcomp : ¬ (newStatus = TxStatus.Successful ∧
          (tx.status = TxStatus.Processing ∨ tx.status = TxStatus.Approved ∨
            tx.status = TxStatus.Pending)) := by simp [hns]
      have hz : ¬ ((0 : Int) ≠ 0) := by simp
      by_cases hc : tx.status ≠ .Successful ∧ tx.status ∉ reversalStatuses
      · have hnneg : ¬ tx.amount < 0 := fun hn => hncond ⟨hn, hc.1, hc.2⟩
        have hcore : setTransactionStatusCore st tx newStatus adminId now freshId =
            .ok { st with transactions := st.transactions.map (fun t =>
                    if t.id == tx.id then
                      { t with
                          status := newStatus
                          lastUpdatedByAdmin := some adminId
                          updatedAt := now }
                    else t) } := by
          unfold setTransactionStatusCore
          dsimp only
          rw [if_neg hcomp, if_pos hrev,
            if_pos (show tx.status ≠ TxStatus.Successful ∧ tx.status ∉ reversalStatuses from hc),
            if_neg hnneg]
          dsimp only
          rw [if_neg hz]
        rw [hcore]
        exact ⟨.inr rfl, rfl⟩
      · have hcore : setTransactionStatusCore st tx newStatus adminId now freshId =
            .ok { st with transactions := st.transactions.map (fun t =>
                    if t.id == tx.id then
                      { t with
                          status := newStatus
                          lastUpdatedByAdmin := some adminId
                          updatedAt := now }
                    else t) } := by
          unfold setTransactionStatusCore
          dsimp only
          rw [if_neg hcomp, if_pos hrev,
            if_neg (show ¬ (tx.status ≠ TxStatus.Successful ∧ tx.status ∉ reversalStatuses) from hc)]
          dsimp only
          rw [if_neg hz]
        rw [hcore]
        exact ⟨.inr rfl, rfl⟩

/-- A concrete Processing debit of -40 on account 222, which user uB of
stC10 holds. -/
def txC5 : Transaction := { txC10 with status := .Processing, accountNumber := "222" }

def stC5 : BankState := { users := stC10.users, transactions := [txC5], deposits := [] }

/-- Witness for C5_reversal_restoration: refunding the Processing debit
restores 40 to account 222. -/
theorem C5_reversal_restoration_witness :
    (txC5.amount < 0 ∧ txC5.status ≠ .Successful ∧ txC5.status ∉ reversalStatuses) ∧
    ((setTransactionStatus stC5 "t1" .Refunded "adm" 5 "t2").1 = .updated .Refunded ∧
      accountBalance (setTransactionStatus stC5 "t1" .Refunded "adm" 5 "t2").2.users
          txC5.accountNumber =
        (accountBalance stC5.users txC5.accountNumber).map (· + jsAbs txC5.amount)) := by
  refine ⟨by decide, ?_⟩
  exact (C5_reversal_restoration stC5 "t1" .Refunded "adm" 5 "t2" txC5
    (by rfl) (by decide) (by rfl)).1 (by decide)

/-- Claim C2: a submitted transfer records its debit leg with amount equal
to minus the requested amount in status Processing, and completing an
internal debit leg (current status Processing, Approved or Pending) appends
a credit leg of amount jsAbs amount with referenceId suffixed -CR in status
Successful, the two signed amounts summing to zero, while the destination
account balance grows by exactly jsAbs amount. -/
theorem C2_conservation (st : BankState) (userId sourceAccountNumber : String) (amt : Int)
    (dest pin referenceId freshId : String) (now : Nat) (user : User)
    (sourceAccount : Account) (st2 : BankState) (transactionId adminId freshId2 : String)
    (now2 : Nat) (tx : Transaction) (dest2 : String) (r : User)
    (hsrc : sourceAccountNumber.isEmpty = false) (hamt : 0 < amt)
    (hpinne : pin.isEmpty = false) (hpinfmt : pinFormatOk pin = true)
    (huser : st.users.find? (fun u => u.id == userId) = some user)
    (hpin : user.transferPin = pin) (hpol : user.transferMessageActive = false)
    (hacct : user.accounts.find? (fun a => a.accountNumber == sourceAccountNumber) =
      some sourceAccount)
    (hbal : 0 ≤ sourceAccount.balance - amt)
    (hfind2 : st2.transactions.find? (fun t => t.id == transactionId) = some tx)
    (hst2 : tx.status = .Processing ∨ tx.status = .Approved ∨ tx.status = .Pending)
    (hint2 : tx.isInternal = true) (hdest2 : tx.destinationAccountNumber = some dest2)
    (hneg2 : tx.amount < 0)
    (hrecip : findUserByAccount st2.users dest2 = some r)
    (hfresh2 : (freshId2 == tx.id) = false) :
    ((submitTransfer st userId sourceAccountNumber amt true true (some dest) pin
          referenceId freshId now).1 =
        .accepted referenceId (sourceAccount.balance - amt) ∧
      ∃ d, (submitTransfer st userId sourceAccountNumber amt true true (some dest) pin
              referenceId freshId now).2.transactions = st.transactions ++ [d] ∧
        d.amount = -amt ∧ d.status = .Processing ∧ d.referenceId = referenceId ∧
        d.isInternal = true ∧ d.destinationAccountNumber = some dest) ∧
    ((setTransactionStatus st2 transactionId .Successful adminId now2 freshId2).1 =
        .updated .Successful ∧
      tx.amount + jsAbs tx.amount = 0 ∧
      accountBalance
          (setTransactionStatus st2 transactionId .Successful adminId now2 freshId2).2.users
          dest2 =
        (accountBalance st2.users dest2).map (· + jsAbs tx.amount) ∧
      ∃ c, (setTransactionStatus st2 transactionId .Successful adminId now2
              freshId2).2.transactions =
          st2.transactions.map (fun t =>
            if t.id == tx.id then
              { t with
                  status := .Successful
                  lastUpdatedByAdmin := some adminId
                  updatedAt := now2 }
            else t) ++ [c] ∧
        c.amount = jsAbs tx.amount ∧ c.referenceId = tx.referenceId ++ "-CR" ∧
        c.status = .Successful ∧ c.accountNumber = dest2) := by
  constructor
  · have hcond1 : ¬ (sourceAccountNumber.isEmpty ∨ amt = 0 ∨ ¬ (true : Bool) ∨
        pin.isEmpty) := by
      simp [hsrc, hpinne]
      omega
    have hsub : submitTransfer st userId sourceAccountNumber amt true true (some dest) pin
        referenceId freshId now =
        (.accepted referenceId (sourceAccount.balance - amt),
          { st with
              users := setUserAccountBalance st.users userId sourceAccountNumber
                (sourceAccount.balance - amt)
              transactions := st.transactions ++
                [{ id := freshId
                   userId := user.id
                   amount := -amt
                   accountNumber := sourceAccount.accountNumber
                   accountType := sourceAccount.accountType
                   referenceId := referenceId
                   destinationAccountNumber := some dest
                   isInternal := true
                   status := .Processing
                   lastUpdatedByAdmin := none
                   updatedAt := now
                   details := none }] }) := by
      unfold submitTransfer
      rw [if_neg hcond1, if_neg (by omega : ¬ amt ≤ 0), if_neg (by simp [hpinfmt]),
        if_neg (by simp : ¬ ((true : Bool) ∧ (some dest = Option.none))), huser]
      dsimp only
      rw [if_neg (by simp [hpin]), if_neg (by simp [hpol]), hacct]
      dsimp only
      rw [if_neg (by omega : ¬ sourceAccount.balance - amt < 0)]
    rw [hsub]
    exact ⟨rfl, _, rfl, rfl, rfl, rfl, rfl, rfl⟩
  · have hne : tx.status ≠ .Successful := by rcases hst2 with h | h | h <;> simp [h]
    obtain ⟨racct, hracct⟩ : ∃ racct,
        r.accounts.find? (fun a => a.accountNumber == dest2) = some racct := by
      have hp := List.find?_some hrecip
      have : (r.accounts.find? (fun a => a.accountNumber == dest2)).isSome = true := by
        rw [List.find?_isSome]
        simpa using hp
      exact Option.isSome_iff_exists.mp this
    have hz : ¬ ((0 : Int) ≠ 0) := by simp
    have hcore : setTransactionStatusCore st2 tx .Successful adminId now2 freshId2 =
        .ok { st2 with
                users := creditUserAccount st2.users r.id dest2 (jsAbs tx.amount)
                transactions := (st2.transactions ++
                  [({ id := freshId2
                      userId := r.id
                      amount := jsAbs tx.amount
                      accountNumber := dest2
                      accountType := racct.accountType
                      referenceId := tx.referenceId ++ "-CR"
                      destinationAccountNumber := none
                      isInternal := true
                      status := .Successful
                      lastUpdatedByAdmin := none
                      updatedAt := now2
                      details := none } : Transaction)]).map (fun t : Transaction =>
                  if t.id == tx.id then
                    { t with
                        status := .Successful
                        lastUpdatedByAdmin := some adminId
                        updatedAt := now2 }
                  else t) } := by
      unfold setTransactionStatusCore
      dsimp only
      rw [if_neg (by simp [reversalStatuses] :
          ¬ (TxStatus.Successful ∈ reversalStatuses)),
        if_pos (show TxStatus.Successful = TxStatus.Successful ∧
          (tx.status = TxStatus.Processing ∨ tx.status = TxStatus.Approved ∨
            tx.status = TxStatus.Pending) from ⟨rfl, hst2⟩),
        if_pos hint2, hdest2]
      dsimp only
      rw [hrecip]
      dsimp only
      rw [hracct]
      dsimp only
      rw [if_neg hz]
    have hmain : setTransactionStatus st2 transactionId .Successful adminId now2 freshId2 =
        (.updated .Successful,
          { st2 with
              users := creditUserAccount st2.users r.id dest2 (jsAbs tx.amount)
              transactions := (st2.transactions ++
                [({ id := freshId2
                    userId := r.id
                    amount := jsAbs tx.amount
                    accountNumber := dest2
                    accountType := racct.accountType
                    referenceId := tx.referenceId ++ "-CR"
                    destinationAccountNumber := none
                    isInternal := true
                    status := .Successful
                    lastUpdatedByAdmin := none
                    updatedAt := now2
                    details := none } : Transaction)]).map (fun t : Transaction =>
                if t.id == tx.id then
                  { t with
                      status := .Successful
                      lastUpdatedByAdmin := some adminId
                      updatedAt := now2 }
                else t) }) := by
      unfold setTransactionStatus
      rw [hfind2]
      dsimp only
      rw [if_neg hne, hcore]
    rw [hmain]
    refine ⟨rfl, by unfold jsAbs; split <;> omega,
      accountBalance_creditUserAccount st2.users r dest2 (jsAbs tx.amount) hrecip, ?_⟩
    refine ⟨({ id := freshId2, userId := r.id, amount := jsAbs tx.amount, accountNumber := dest2, accountType := racct.accountType, referenceId := tx.referenceId ++ "-CR", destinationAccountNumber := none, isInternal := true, status := .Successful, lastUpdatedByAdmin := none, updatedAt := now2, details := none } : Transaction), ?_, rfl, rfl, rfl, rfl⟩
    have hfresh2' : ¬ (freshId2 = tx.id) := by simpa using hfresh2
    rw [List.map_append]
    simp [hfresh2']

def acctC2A : Account :=
  { accountNumber := "111"
    accountType := "Checking"
    currencyCode := "USD"
    balance := 100
    overdraftLimit := 0 }

def userC2A : User :=
  { id := "uA"
    userIdName := "alice"
    email := "a@x.com"
    transferPin := "1234"
    transferMessageActive := false
    accounts := [acctC2A] }

def userC2B : User :=
  { id := "uB"
    userIdName := "bob"
    email := "b@x.com"
    transferPin := "9999"
    transferMessageActive := false
    accounts := [{ accountNumber := "222"
                   accountType := "Savings"
                   currencyCode := "USD"
                   balance := 500
                   overdraftLimit := 0 }] }

def stC2sub : BankState := { users := [userC2A, userC2B], transactions := [], deposits := [] }

/-- The Processing internal debit of -40 from account 111 toward 222. -/
def txC2 : Transaction := { txC1 with status := .Processing }

def stC2cmp : BankState := { users := [userC2B], transactions := [txC2], deposits := [] }

/-- Witness for C2_conservation: the spec scenario, a 40 transfer against
balance 100 is accepted with new balance 60, and completing the debit leg
leaves the destination account at 540. -/
theorem C2_conservation_witness :
    (submitTransfer stC2sub "uA" "111" 40 true true (some "222") "1234" "TXN-9" "d1" 1).1 =
      .accepted "TXN-9" 60 ∧
    accountBalance (setTransactionStatus stC2cmp "t1" .Successful "adm" 5 "t2").2.users
      "222" = some 540 := by
  have h := C2_conservation stC2sub "uA" "111" 40 "222" "1234" "TXN-9" "d1" 1 userC2A
    acctC2A stC2cmp "t1" "adm" "t2" 5 txC2 "222" userC2B
    (by rfl) (by decide) (by rfl) (by decide) (by rfl) (by rfl) (by rfl) (by rfl)
    (by decide) (by rfl) (by decide) (by rfl) (by rfl) (by decide) (by rfl) (by rfl)
  refine ⟨h.1.1, ?_⟩
  rw [h.2.2.2.1]
  rfl

/-- Claim C3: with every earlier validation passing, a transfer whose
amount exceeds the source balance fails with the insufficient-funds outcome
and leaves the whole state unchanged (no balance change, no transaction
record), while a transfer whose amount exactly equals the balance is
accepted with new balance zero. -/
theorem C3_no_overdraft (st : BankState) (userId sourceAccountNumber : String) (amt : Int)
    (iit : Bool) (dst : Option String) (pin referenceId freshId : String) (now : Nat)
    (user : User) (sourceAccount : Account)
    (hsrc : sourceAccountNumber.isEmpty = false) (hamt : 0 < amt)
    (hpinne : pin.isEmpty = false) (hpinfmt : pinFormatOk pin = true)
    (hiit : ¬ (iit ∧ dst = none))
    (huser : st.users.find? (fun u => u.id == userId) = some user)
    (hpin : user.transferPin = pin) (hpol : user.transferMessageActive = false)
    (hacct : user.accounts.find? (fun a => a.accountNumber == sourceAccountNumber) =
      some sourceAccount) :
    (sourceAccount.balance - amt < 0 →
      submitTransfer st userId sourceAccountNumber amt true iit dst pin referenceId
        freshId now = (.insufficientFunds, st)) ∧
    (sourceAccount.balance = amt →
      (submitTransfer st userId sourceAccountNumber amt true iit dst pin referenceId
        freshId now).1 = .accepted referenceId 0) := by
  have hcond1 : ¬ (sourceAccountNumber.isEmpty ∨ amt = 0 ∨ ¬ (true : Bool) ∨
      pin.isEmpty) := by
    simp [hsrc, hpinne]
    omega
  constructor
  · intro hover
    unfold submitTransfer
    rw [if_neg hcond1, if_neg (by omega : ¬ amt ≤ 0), if_neg (by simp [hpinfmt]), if_neg hiit,
      huser]
    dsimp only
    rw [if_neg (by simp [hpin]), if_neg (by simp [hpol]), hacct]
    dsimp only
    rw [if_pos hover]
  · intro hexact
    unfold submitTransfer
    rw [if_neg hcond1, if_neg (by omega : ¬ amt ≤ 0), if_neg (by simp [hpinfmt]), if_neg hiit,
      huser]
    dsimp only
    rw [if_neg (by simp [hpin]), if_neg (by simp [hpol]), hacct]
    dsimp only
    rw [if_neg (by omega : ¬ sourceAccount.balance - amt < 0)]
    simp [hexact]

/-- Witness for C3_no_overdraft: a 150 transfer against balance 100 is
rejected with no state change, a 100 transfer against balance 100 is
accepted with new balance 0. -/
theorem C3_no_overdraft_witness :
    submitTransfer stC2sub "uA" "111" 150 true false none "1234" "TXN-9" "d1" 1 =
      (.insufficientFunds, stC2sub) ∧
    (submitTransfer stC2sub "uA" "111" 100 true false none "1234" "TXN-9" "d1" 1).1 =
      .accepted "TXN-9" 0 := by
  constructor
  · exact (C3_no_overdraft stC2sub "uA" "111" 150 false none "1234" "TXN-9" "d1" 1 userC2A
      acctC2A (by rfl) (by decide) (by rfl) (by decide) (by simp) (by rfl) (by rfl)
      (by rfl) (by rfl)).1 (by decide)
  · exact (C3_no_overdraft stC2sub "uA" "111" 100 false none "1234" "TXN-9" "d1" 1 userC2A
      acctC2A (by rfl) (by decide) (by rfl) (by decide) (by simp) (by rfl) (by rfl)
      (by rfl) (by rfl)).2 (by decide)

/-- A pending 50 USD check deposit of user uA. -/
def depC4 : CheckDeposit :=
  { depositId := "DEP-1000"
    status := "Pending"
    userId := "uA"
    amount := 50
    currencyCode := "USD"
    destinationAccountNumber := "111"
    reviewNotes := ""
    createdAt := 1
    updatedAt := 1 }

def stC4 : BankState := { users := [userC2A], transactions := [], deposits := [depC4] }

/-- Claim C4, behaviour of the code at the failing input: reviewing the
Pending deposit with the decision Approved does not set the status to
Approved and does not credit the account - the route lowercases the status,
credits only on the string completed, and the lowercased value approved
fails the schema enum validation, so the request errors with the deposit
still Pending and the balance untouched.  Even the status string completed
that the credit guard expects credits the account (the balance does move
from 100 to 150) but then fails the same enum validation, so the deposit
never reaches the guarding status and the credit is repeatable. -/
theorem C4_review_behavior :
    (reviewCheckDeposit stC4 "DEP-1000" "Approved" "looks good" 9).1 = .validationError ∧
    (reviewCheckDeposit stC4 "DEP-1000" "Approved" "looks good" 9).2 = stC4 ∧
    (reviewCheckDeposit stC4 "DEP-1000" "completed" "" 9).1 = .validationError ∧
    accountBalance (reviewCheckDeposit stC4 "DEP-1000" "completed" "" 9).2.users "111" =
      some 150 ∧
    ((reviewCheckDeposit stC4 "DEP-1000" "completed" "" 9).2.deposits.map
      (fun d => d.status)) = ["Pending"] ∧
    accountBalance
        (reviewCheckDeposit (reviewCheckDeposit stC4 "DEP-1000" "completed" "" 9).2
          "DEP-1000" "completed" "" 9).2.users "111" = some 200 := by
  refine ⟨rfl, rfl, rfl, rfl, rfl, rfl⟩

lemma generateUniqueAttempts_ok (users : List User) (gen : Nat → Account) (i : Nat)
    (hi : i < 10) (hfree : accountNumberTaken users (gen i).accountNumber = false)
    (hcoll : ∀ j, j < i → accountNumberTaken users (gen j).accountNumber = true) :
    ∀ k a, a + k = i → generateUniqueAttempts users gen a = .ok (gen i) := by
  intro k
  induction k with
  | zero =>
    intro a ha
    simp only [Nat.add_zero] at ha
    subst ha
    rw [generateUniqueAttempts, dif_pos hi, if_neg (by simp [hfree])]
  | succ k ih =>
    intro a ha
    have halt : a < i := by omega
    rw [generateUniqueAttempts, dif_pos (by omega : a < 10),
      if_pos (by simp [hcoll a halt])]
    exact ih (a + 1) (by omega)

lemma generateUniqueAttempts_exhaust (users : List User) (gen : Nat → Account)
    (hcoll : ∀ j, j < 10 → accountNumberTaken users (gen j).accountNumber = true) :
    ∀ k a, a + k = 10 → generateUniqueAttempts users gen a =
      .error "Failed to generate a unique bank account number after maximum attempts." := by
  intro k
  induction k with
  | zero =>
    intro a ha
    simp only [Nat.add_zero] at ha
    subst ha
    rw [generateUniqueAttempts, dif_neg (by omega : ¬ (10 : Nat) < 10)]
  | succ k ih =>
    intro a ha
    rw [generateUniqueAttempts, dif_pos (by omega : a < 10),
      if_pos (by simp [hcoll a (by omega)])]
    exact ih (a + 1) (by omega)

/-- Claim C8: generateUniqueAccountDetails makes at most ten attempts and
returns the first candidate whose number no user holds; when all ten
candidates collide it raises the exhaustion error, and a registration whose
checking-account generation exhausts its attempts fails with the internal
error and persists nothing. -/
theorem C8_generation_retry (st : BankState) (form : RegistrationForm)
    (emailFormatOk : Bool) (genChecking genSavings goodGen : Nat → Account)
    (newUserId : String) (i : Nat)
    (hi : i < 10)
    (hfree : accountNumberTaken st.users (goodGen i).accountNumber = false)
    (hcoll : ∀ j, j < i → accountNumberTaken st.users (goodGen j).accountNumber = true)
    (hallcoll : ∀ j, j < 10 →
      accountNumberTaken st.users (genChecking j).accountNumber = true)
    (hreq : ¬ (form.userIdName.isEmpty ∨ form.userPassword.isEmpty ∨
      form.fullName.isEmpty ∨ form.email.isEmpty ∨ form.dob.isEmpty ∨
      form.address.isEmpty ∨ form.occupation.isEmpty ∨ form.transferPin.isEmpty ∨
      form.currency.isEmpty))
    (hlen1 : ¬ form.userIdName.length < 5) (hlen2 : ¬ form.userPassword.length < 8)
    (hpinf : pinFormatOk form.transferPin = true) (hem : emailFormatOk = true) :
    generateUniqueAccountDetails st.users goodGen = .ok (goodGen i) ∧
    generateUniqueAccountDetails st.users genChecking =
      .error "Failed to generate a unique bank account number after maximum attempts." ∧
    registerUser st form emailFormatOk genChecking genSavings newUserId =
      (.internalGenError, st) := by
  have hok : generateUniqueAccountDetails st.users goodGen = .ok (goodGen i) :=
    generateUniqueAttempts_ok st.users goodGen i hi hfree hcoll i 0 (by omega)
  have herr : generateUniqueAccountDetails st.users genChecking =
      .error "Failed to generate a unique bank account number after maximum attempts." :=
    generateUniqueAttempts_exhaust st.users genChecking hallcoll 10 0 (by omega)
  refine ⟨hok, herr, ?_⟩
  unfold registerUser
  rw [if_neg hreq, if_neg hlen1, if_neg hlen2, if_neg (by simp [hpinf]),
    if_neg (by simp [hem]), herr]

def genCollide : Nat → Account := fun _ => acctC2A

def genEventuallyFree : Nat → Account := fun j =>
  if j < 3 then acctC2A else { acctC2A with accountNumber := "999" }

def formC8 : RegistrationForm :=
  { userIdName := "charlie"
    userPassword := "longenough"
    fullName := "Charlie C"
    email := "c@x.com"
    dob := "2000-01-01"
    address := "1 Road"
    occupation := "dev"
    transferPin := "4321"
    currency := "USD" }

/-- Witness for C8_generation_retry: against a store where account 111 is
taken, a generator that emits 111 three times then 999 succeeds with 999,
while the constant-111 generator exhausts all ten attempts and makes the
registration fail with the internal error and no state change. -/
theorem C8_generation_retry_witness :
    generateUniqueAccountDetails stC2sub.users genEventuallyFree =
      .ok { acctC2A with accountNumber := "999" } ∧
    registerUser stC2sub formC8 true genCollide genCollide "uC" =
      (.internalGenError, stC2sub) := by
  have h := C8_generation_retry stC2sub formC8 true genCollide genCollide
    genEventuallyFree "uC" 3 (by decide) (by decide) (by decide) (by decide)
    (by decide) (by decide) (by decide) (by decide) (by rfl)
  exact ⟨h.1, h.2.2⟩

def depC9a : CheckDeposit := { depC4 with depositId := "DEP-2000", createdAt := 10 }

def depC9b : CheckDeposit := { depC4 with depositId := "DEP-1500", createdAt := 20 }

def stC9 : BankState := { users := [userC2A], transactions := [], deposits := [depC9a, depC9b] }

/-- Claim C9, counterexample: with an older deposit DEP-2000 and a most
recently created deposit DEP-1500, a new submission is allocated DEP-1501
(most recent suffix plus one), not DEP-2001 (highest suffix plus one) as the
claim states. -/
theorem C9_counterexample :
    (∃ d, (submitCheckDeposit stC9 "uA" 50 "USD" "111" true 30).2.deposits =
        stC9.deposits ++ [d] ∧ d.depositId = "DEP-1501") ∧
    "DEP-" ++ toString (specNextDepositIdNum stC9.deposits) = "DEP-2001" ∧
    ("DEP-1501" : String) ≠ "DEP-2001" := by
  exact ⟨⟨_, rfl, rfl⟩, rfl, by decide⟩

/-- Claim C9 (amended): each submitted deposit gets id DEP- followed by the
numeric suffix of the most recently created deposit plus one (1000 when no
deposit exists), not the highest suffix among all deposits. -/
theorem C9_sequential_allocation (st : BankState) (userId : String) (amount : Int)
    (currencyCode destinationAccountNumber : String) (now : Nat)
    (hamt : 0 < amount) (hccy : currencyCode.isEmpty = false)
    (hdst : destinationAccountNumber.isEmpty = false) :
    (∃ d, (submitCheckDeposit st userId amount currencyCode destinationAccountNumber
        true now).2.deposits = st.deposits ++ [d] ∧
      d.status = "Pending" ∧
      d.depositId = "DEP-" ++ toString (computeNextDepositIdNum st.deposits)) ∧
    (st.deposits = [] → computeNextDepositIdNum st.deposits = 1000) ∧
    (∀ last part n, latestDeposit st.deposits = some last →
      (depositIdParts last.depositId).get? 1 = some part →
      jsParseInt part = some n →
      computeNextDepositIdNum st.deposits = n + 1) := by
  refine ⟨?_, ?_, ?_⟩
  · have hsub : submitCheckDeposit st userId amount currencyCode destinationAccountNumber
        true now =
        (.created ("DEP-" ++ toString (computeNextDepositIdNum st.deposits)),
          { st with deposits := st.deposits ++
            [{ depositId := "DEP-" ++ toString (computeNextDepositIdNum st.deposits)
               status := "Pending"
               userId := userId
               amount := amount
               currencyCode := ⟨currencyCode.data.map Char.toUpper⟩
               destinationAccountNumber := destinationAccountNumber
               reviewNotes := ""
               createdAt := now
               updatedAt := now }] }) := by
      unfold submitCheckDeposit
      rw [if_neg (by simp [hccy, hdst]; omega), if_neg (by omega : ¬ amount ≤ 0)]
    rw [hsub]
    exact ⟨_, rfl, rfl, rfl⟩
  · intro h
    simp [computeNextDepositIdNum, latestDeposit, h]
  · intro last part n hlast hpart hn
    unfold computeNextDepositIdNum
    rw [hlast]
    dsimp only
    rw [hpart]
    dsimp only
    rw [hn]

/-- Witness for C9_sequential_allocation at the concrete stC9. -/
theorem C9_sequential_allocation_witness :
    ∃ d, (submitCheckDeposit stC9 "uA" 50 "USD" "111" true 30).2.deposits =
        stC9.deposits ++ [d] ∧
      d.status = "Pending" ∧
      d.depositId = "DEP-" ++ toString (computeNextDepositIdNum stC9.deposits) := by
  exact (C9_sequential_allocation stC9 "uA" 50 "USD" "111" 30
    (by decide) (by rfl) (by rfl)).1

/-- The account invariant of the spec: balance + overdraftLimit is not
negative. -/
def accountOk (a : Account) : Prop := 0 ≤ a.balance + a.overdraftLimit

instance (a : Account) : Decidable (accountOk a) :=
  inferInstanceAs (Decidable (0 ≤ a.balance + a.overdraftLimit))

/-- The invariant over the whole state: every account of every user
satisfies accountOk. -/
def stateInvariant (st : BankState) : Prop :=
  ∀ u ∈ st.users, ∀ a ∈ u.accounts, accountOk a

instance (st : BankState) : Decidable (stateInvariant st) :=
  inferInstanceAs (Decidable (∀ u ∈ st.users, ∀ a ∈ u.accounts, accountOk a))

lemma accountOk_incFirstMatchingAccount (accounts : List Account) (acct : String) (δ : Int)
    (hδ : 0 ≤ δ) (h : ∀ a ∈ accounts, accountOk a) :
    ∀ a ∈ incFirstMatchingAccount accounts acct δ, accountOk a := by
  induction accounts with
  | nil => simp [incFirstMatchingAccount]
  | cons a rest ih =>
    rw [incFirstMatchingAccount]
    split
    · intro x hx
      rcases List.mem_cons.mp hx with hx | hx
      · subst hx
        have ha := h a (List.mem_cons_self a rest)
        simp only [accountOk] at ha ⊢
        omega
      · exact h x (List.mem_cons_of_mem _ hx)
    · intro x hx
      rcases List.mem_cons.mp hx with hx | hx
      · rw [hx]
        exact h a (List.mem_cons_self a rest)
      · exact ih (fun y hy => h y (List.mem_cons_of_mem _ hy)) x hx

lemma accountOk_incAllMatchingAccounts (accounts : List Account) (acct : String) (δ : Int)
    (hδ : 0 ≤ δ) (h : ∀ a ∈ accounts, accountOk a) :
    ∀ a ∈ incAllMatchingAccounts accounts acct δ, accountOk a := by
  intro x hx
  unfold incAllMatchingAccounts at hx
  rcases List.mem_map.mp hx with ⟨a, ha, rfl⟩
  by_cases hm : (a.accountNumber == acct) = true
  · rw [if_pos hm]
    have haok := h a ha
    simp only [accountOk] at haok ⊢
    omega
  · rw [if_neg hm]
    exact h a ha

lemma accountOk_creditFirstAccountByCurrency (accounts : List Account) (ccy : String)
    (amt : Int) (hamt : 0 ≤ amt) (h : ∀ a ∈ accounts, accountOk a) :
    ∀ a ∈ creditFirstAccountByCurrency accounts ccy amt, accountOk a := by
  induction accounts with
  | nil => simp [creditFirstAccountByCurrency]
  | cons a rest ih =>
    rw [creditFirstAccountByCurrency]
    split
    · intro x hx
      rcases List.mem_cons.mp hx with hx | hx
      · subst hx
        have ha := h a (List.mem_cons_self a rest)
        simp only [accountOk] at ha ⊢
        omega
      · exact h x (List.mem_cons_of_mem _ hx)
    · intro x hx
      rcases List.mem_cons.mp hx with hx | hx
      · rw [hx]
        exact h a (List.mem_cons_self a rest)
      · exact ih (fun y hy => h y (List.mem_cons_of_mem _ hy)) x hx

lemma accountOk_setFirstMatchingAccount (accounts : List Account) (acct : String) (v : Int)
    (h : ∀ a ∈ accounts, accountOk a)
    (hva : ∀ a, accounts.find? (fun x => x.accountNumber == acct) = some a →
      accountOk { a with balance := v }) :
    ∀ a ∈ setFirstMatchingAccount accounts acct v, accountOk a := by
  induction accounts with
  | nil => simp [setFirstMatchingAccount]
  | cons a rest ih =>
    rw [setFirstMatchingAccount]
    by_cases hm : (a.accountNumber == acct) = true
    · rw [if_pos hm]
      intro x hx
      rcases List.mem_cons.mp hx with hx | hx
      · subst hx
        exact hva a (List.find?_cons_of_pos
          (p := fun x : Account => x.accountNumber == acct) _ hm)
      · exact h x (List.mem_cons_of_mem _ hx)
    · rw [if_neg hm]
      intro x hx
      rcases List.mem_cons.mp hx with hx | hx
      · rw [hx]
        exact h a (List.mem_cons_self a rest)
      · refine ih (fun y hy => h y (List.mem_cons_of_mem _ hy)) (fun y hy => hva y ?_) x hx
        rw [List.find?_cons_of_neg (p := fun x : Account => x.accountNumber == acct) _ hm]
        exact hy

lemma usersOk_updateFirstUserHolding (users : List User) (acct : String) (δ : Int)
    (users' : List User) (hδ : 0 ≤ δ)
    (h : ∀ u ∈ users, ∀ a ∈ u.accounts, accountOk a)
    (hupd : updateFirstUserHolding users acct δ = some users') :
    ∀ u ∈ users', ∀ a ∈ u.accounts, accountOk a := by
  induction users generalizing users' with
  | nil => simp [updateFirstUserHolding] at hupd
  | cons u rest ih =>
    rw [updateFirstUserHolding] at hupd
    by_cases hc : (u.accounts.any fun a => a.accountNumber == acct) = true
    · rw [if_pos hc] at hupd
      cases hupd
      intro x hx
      rcases List.mem_cons.mp hx with hx | hx
      · subst hx
        exact accountOk_incAllMatchingAccounts u.accounts acct δ hδ
          (h u (List.mem_cons_self u rest))
      · exact h x (List.mem_cons_of_mem _ hx)
    · rw [if_neg hc] at hupd
      cases hrec : updateFirstUserHolding rest acct δ with
      | none => rw [hrec] at hupd; cases hupd
      | some rest' =>
        rw [hrec] at hupd
        cases hupd
        intro x hx
        rcases List.mem_cons.mp hx with hx | hx
        · rw [hx]
          exact h u (List.mem_cons_self u rest)
        · exact ih rest' (fun y hy => h y (List.mem_cons_of_mem _ hy)) hrec x hx

lemma usersOk_creditUserAccount (users : List User) (uid acct : String) (δ : Int)
    (hδ : 0 ≤ δ) (h : ∀ u ∈ users, ∀ a ∈ u.accounts, accountOk a) :
    ∀ u ∈ creditUserAccount users uid acct δ, ∀ a ∈ u.accounts, accountOk a := by
  intro x hx
  unfold creditUserAccount at hx
  rcases List.mem_map.mp hx with ⟨u, hu, rfl⟩
  by_cases hc : (u.id == uid && u.accounts.any fun a => a.accountNumber == acct) = true
  · rw [if_pos hc]
    exact accountOk_incFirstMatchingAccount u.accounts acct δ hδ (h u hu)
  · rw [if_neg hc]
    exact h u hu

lemma usersOk_setUserAccountBalance (users : List User) (uid acct : String) (v : Int)
    (h : ∀ u ∈ users, ∀ a ∈ u.accounts, accountOk a)
    (hva : ∀ u ∈ users, ∀ a, u.accounts.find? (fun x => x.accountNumber == acct) = some a →
      accountOk { a with balance := v }) :
    ∀ u ∈ setUserAccountBalance users uid acct v, ∀ a ∈ u.accounts, accountOk a := by
  intro x hx
  unfold setUserAccountBalance at hx
  rcases List.mem_map.mp hx with ⟨u, hu, rfl⟩
  by_cases hc : (u.id == uid && u.accounts.any fun a => a.accountNumber == acct) = true
  · rw [if_pos hc]
    exact accountOk_setFirstMatchingAccount u.accounts acct v (h u hu) (hva u hu)
  · rw [if_neg hc]
    exact h u hu

lemma ite_jsAbs_nonneg (c1 c2 c3 : Prop) [Decidable c1] [Decidable c2] [Decidable c3]
    (x : Int) :
    0 ≤ if c1 then (if c2 then (if c3 then jsAbs x else 0) else 0) else 0 := by
  split
  · split
    · split
      · exact jsAbs_nonneg x
      · omega
    · omega
  · omega

lemma stateInvariant_core (st : BankState) (tx : Transaction) (newStatus : TxStatus)
    (adminId : String) (now : Nat) (freshId : String) (st' : BankState)
    (hinv : stateInvariant st)
    (hcore : setTransactionStatusCore st tx newStatus adminId now freshId = .ok st') :
    stateInvariant st' := by
  unfold setTransactionStatusCore at hcore
  dsimp only at hcore
  by_cases hcomp : newStatus = TxStatus.Successful ∧
      (tx.status = TxStatus.Processing ∨ tx.status = TxStatus.Approved ∨
        tx.status = TxStatus.Pending)
  · rw [if_pos hcomp] at hcore
    obtain ⟨hns, hdisj⟩ := hcomp
    subst hns
    rw [if_neg (by decide : ¬ (TxStatus.Successful ∈ reversalStatuses))] at hcore
    by_cases hint : tx.isInternal = true
    · rw [if_pos hint] at hcore
      cases hdest : tx.destinationAccountNumber with
      | none => rw [hdest] at hcore; cases hcore
      | some dest =>
        rw [hdest] at hcore
        dsimp only at hcore
        cases hrec : findUserByAccount st.users dest with
        | none => rw [hrec] at hcore; cases hcore
        | some r =>
          rw [hrec] at hcore
          dsimp only at hcore
          cases hracct : r.accounts.find? (fun a => a.accountNumber == dest) with
          | none => rw [hracct] at hcore; cases hcore
          | some racct =>
            rw [hracct] at hcore
            dsimp only at hcore
            rw [if_neg (by simp : ¬ ((0 : Int) ≠ 0))] at hcore
            dsimp only at hcore
            cases hcore
            intro u hu
            exact usersOk_creditUserAccount st.users r.id dest (jsAbs tx.amount)
              (jsAbs_nonneg tx.amount) hinv u hu
    · rw [if_neg hint] at hcore
      dsimp only at hcore
      rw [if_neg (by simp : ¬ ((0 : Int) ≠ 0))] at hcore
      dsimp only at hcore
      cases hcore
      intro u hu
      exact hinv u hu
  · rw [if_neg hcomp] at hcore
    dsimp only at hcore
    by_cases hz : (if newStatus ∈ reversalStatuses then
        (if tx.status ≠ TxStatus.Successful ∧ tx.status ∉ reversalStatuses then
          (if tx.amount < 0 then jsAbs tx.amount else 0) else 0) else 0) ≠ 0
    · rw [if_pos hz] at hcore
      cases hrec : updateFirstUserHolding st.users tx.accountNumber
          (if newStatus ∈ reversalStatuses then
            (if tx.status ≠ TxStatus.Successful ∧ tx.status ∉ reversalStatuses then
              (if tx.amount < 0 then jsAbs tx.amount else 0) else 0) else 0) with
      | none => rw [hrec] at hcore; cases hcore
      | some users2 =>
        rw [hrec] at hcore
        dsimp only at hcore
        cases hcore
        intro u hu
        exact usersOk_updateFirstUserHolding st.users tx.accountNumber _ users2
          (ite_jsAbs_nonneg _ _ _ _) hinv hrec u hu
    · rw [if_neg hz] at hcore
      dsimp only at hcore
      cases hcore
      intro u hu
      exact hinv u hu

def stC7 : BankState :=
  { users := [{ userC2A with accounts := [{ acctC2A with balance := 0 }] }]
    transactions := []
    deposits := [] }

/-- Claim C7, counterexample: mock-transaction generation is one of the
listed balance-mutating operations, the invariant holds before it, yet a
single generated debit of 50 against balance 0 drives the account to -50
with overdraftLimit 0, violating balance + overdraftLimit being
nonnegative. -/
theorem C7_counterexample :
    stateInvariant stC7 ∧
    (generateMockTransactions stC7 "uA" [(false, 50)] (fun _ => "R1") (fun _ => "I1") 3).1 =
      .ok (-50) ∧
    ¬ stateInvariant
      (generateMockTransactions stC7 "uA" [(false, 50)] (fun _ => "R1") (fun _ => "I1") 3).2 := by
  refine ⟨by decide, by rfl, by decide⟩

/-- Claim C7 (amended): the invariant balance + overdraftLimit being
nonnegative for every account is preserved by transfer submission, by status
transitions (completion and reversal), by the admin credit/debit, and by
check-deposit review, given the schema-enforced side conditions (unique
account numbers, nonnegative overdraft limits, positive deposit amounts);
mock-transaction generation does not preserve it. -/
theorem C7_invariant_preservation (st : BankState)
    (huniq : ∀ u1 ∈ st.users, ∀ u2 ∈ st.users, ∀ a1 ∈ u1.accounts, ∀ a2 ∈ u2.accounts,
      a1.accountNumber = a2.accountNumber → u1 = u2 ∧ a1 = a2)
    (hod : ∀ u ∈ st.users, ∀ a ∈ u.accounts, 0 ≤ a.overdraftLimit)
    (hdep : ∀ d ∈ st.deposits, 0 < d.amount)
    (hinv : stateInvariant st)
    (userId sourceAccountNumber : String) (amt : Int) (ttp iit : Bool)
    (dst : Option String) (pin referenceId freshId : String) (now : Nat)
    (transactionId : String) (newStatus : TxStatus) (adminId : String) (now2 : Nat)
    (freshId2 : String)
    (userId3 accountNumber3 type3 : String) (amt3 : Int) (desc3 ref3 freshId3 : String)
    (now3 : Nat)
    (depositId4 status4 notes4 : String) (now4 : Nat) :
    stateInvariant (submitTransfer st userId sourceAccountNumber amt ttp iit dst pin
      referenceId freshId now).2 ∧
    stateInvariant (setTransactionStatus st transactionId newStatus adminId now2
      freshId2).2 ∧
    stateInvariant (adminFundsTransfer st userId3 accountNumber3 type3 amt3 desc3 ref3
      freshId3 now3).2 ∧
    stateInvariant (reviewCheckDeposit st depositId4 status4 notes4 now4).2 := by
  refine ⟨?_, ?_, ?_, ?_⟩
  · unfold submitTransfer
    split
    · exact hinv
    split
    · exact hinv
    split
    · exact hinv
    split
    · exact hinv
    split
    · exact hinv
    rename_i user huser
    split
    · exact hinv
    split
    · exact hinv
    split
    · exact hinv
    rename_i sourceAccount hacct
    dsimp only
    split
    · exact hinv
    intro u hu
    refine usersOk_setUserAccountBalance st.users userId sourceAccountNumber
      (sourceAccount.balance - amt) hinv ?_ u hu
    intro v hv b hb
    have hbmem := List.mem_of_find?_eq_some hb
    have hodb := hod v hv b hbmem
    simp only [accountOk]
    omega
  · unfold setTransactionStatus
    split
    · exact hinv
    rename_i tx htx
    split
    · exact hinv
    split
    · exact hinv
    rename_i st' hcore
    exact stateInvariant_core st tx newStatus adminId now2 freshId2 st' hinv hcore
  · unfold adminFundsTransfer
    split
    · exact hinv
    split
    · exact hinv
    split
    · exact hinv
    split
    · exact hinv
    rename_i user huser
    split
    · exact hinv
    rename_i account hacct
    have hva : ∀ w : Int, 0 ≤ w + account.overdraftLimit →
        ∀ v ∈ st.users, ∀ b,
        v.accounts.find? (fun x => x.accountNumber == accountNumber3) = some b →
        accountOk { b with balance := w } := by
      intro w hw v hv b hb
      have hbmem := List.mem_of_find?_eq_some hb
      have hbnum : b.accountNumber = accountNumber3 := by simpa using List.find?_some hb
      have humem := List.mem_of_find?_eq_some huser
      have hamem := List.mem_of_find?_eq_some hacct
      have hanum : account.accountNumber = accountNumber3 := by
        simpa using List.find?_some hacct
      obtain ⟨hveq, hbeq⟩ := huniq v hv user humem b hbmem account hamem
        (by rw [hbnum, hanum])
      subst hbeq
      simp only [accountOk]
      omega
    have haok := hinv user (List.mem_of_find?_eq_some huser) account
      (List.mem_of_find?_eq_some hacct)
    have haod := hod user (List.mem_of_find?_eq_some huser) account
      (List.mem_of_find?_eq_some hacct)
    simp only [accountOk] at haok
    dsimp only
    split
    · exact hinv
    rename_i newBalance finalSigned heq
    have hnb : 0 ≤ newBalance + account.overdraftLimit := by
      split at heq
      · cases heq
        omega
      · split at heq
        · cases heq
        · cases heq
          omega
    intro u hu
    exact usersOk_setUserAccountBalance st.users userId3 accountNumber3 newBalance hinv
      (hva newBalance hnb) u hu
  · unfold reviewCheckDeposit
    by_cases h1 : status4.isEmpty = true
    · rw [if_pos h1]
      exact hinv
    rw [if_neg h1]
    dsimp only
    by_cases h2 : (jsToLower status4 ∈ ["failed", "declined"]) ∧ (notes4.trim).length < 5
    · rw [if_pos h2]
      exact hinv
    rw [if_neg h2]
    cases hfind : st.deposits.find? (fun d => d.depositId == depositId4) with
    | none => exact hinv
    | some deposit =>
      dsimp only
      have hdpos : 0 < deposit.amount := hdep deposit (List.mem_of_find?_eq_some hfind)
      by_cases h3 : deposit.status ≠ "completed" ∧ jsToLower status4 = "completed"
      · rw [if_pos h3]
        cases hu : st.users.find? (fun u => u.id == deposit.userId) with
        | none => exact hinv
        | some user =>
          dsimp only
          cases ha : user.accounts.find?
              (fun a => a.currencyCode == deposit.currencyCode) with
          | none => exact hinv
          | some acc =>
            dsimp only
            have husers1 : ∀ u ∈ (st.users.map fun u =>
                if (u.id == deposit.userId) = true then
                  { u with accounts := (creditFirstAccountByCurrency u.accounts
                      deposit.currencyCode deposit.amount) }
                else u), ∀ a ∈ u.accounts, accountOk a := by
              intro x hx
              rcases List.mem_map.mp hx with ⟨u, hu2, rfl⟩
              by_cases hc : (u.id == deposit.userId) = true
              · rw [if_pos hc]
                exact accountOk_creditFirstAccountByCurrency _ _ _ (by omega) (hinv u hu2)
              · rw [if_neg hc]
                exact hinv u hu2
            by_cases h4 : jsToLower status4 ∈ depositStatusEnum
            · rw [if_pos h4]
              intro u hu3
              exact husers1 u hu3
            · rw [if_neg h4]
              intro u hu3
              exact husers1 u hu3
      · rw [if_neg h3]
        dsimp only
        by_cases h4 : jsToLower status4 ∈ depositStatusEnum
        · rw [if_pos h4]
          intro u hu3
          exact hinv u hu3
        · rw [if_neg h4]
          intro u hu3
          exact hinv u hu3

/-- Witness for C7_invariant_preservation on a concrete two-user state and
one call of each operation. -/
theorem C7_invariant_preservation_witness :
    stateInvariant (submitTransfer stC2sub "uA" "111" 40 true true (some "222") "1234"
      "TXN-9" "d1" 1).2 ∧
    stateInvariant (setTransactionStatus stC2sub "t1" .Successful "adm" 5 "t2").2 ∧
    stateInvariant (adminFundsTransfer stC2sub "uA" "111" "debit" 30 "fee" "AR" "d2" 2).2 ∧
    stateInvariant (reviewCheckDeposit stC2sub "DEP-1000" "Declined" "badcheck" 9).2 := by
  exact C7_invariant_preservation stC2sub (by decide) (by decide) (by decide) (by decide)
    "uA" "111" 40 true true (some "222") "1234" "TXN-9" "d1" 1
    "t1" .Successful "adm" 5 "t2"
    "uA" "111" "debit" 30 "fee" "AR" "d2" 2
    "DEP-1000" "Declined" "badcheck" 9

end Sunflower
